import Mathlib

/-!
Shallow embedding of the `repokit` generic Cloud Spanner repository
(`SpannerRepository[T]`, its statement builders, key codec, transactional
write paths and the `SpannerTransactionManager`) together with theorems
settling the specification claims about it.

Modelling conventions:
* Machine values stored in rows, parameters and key tuples are `Value`.
* Go's `error` results become `Option GoErr` (`none` = nil error) or
  `Except GoErr _`; the `iterator.Done` sentinel is the `GoErr.iterDone`
  constructor, so `errors.Is(err, iterator.Done)` is a constructor match.
* A Spanner row iterator is a `QueryResult`: the rows it yields in order,
  then either `iterator.Done` (`terminalErr = none`) or an error.
* The external Spanner client is passed to each operation as an explicit
  capability function (`exec`, `applyM`, `read`, ...), mirroring the
  spec's treatment of the database client as an injected capability.
* A Go panic (index out of range) is modelled as `Option.none` on the
  result of the one operation that can panic (`FindPage`).
-/

namespace Repokit

/-- A database value: the dynamic `interface{}` payloads the repository
moves around (row cells, named parameters, key-tuple components). -/
inductive Value where
  | intV (n : Int)
  | strV (s : String)
  | nullV
deriving DecidableEq, Repr

/-- A Go error as the repository observes it: the `iterator.Done`
sentinel, or any other error carrying a message. -/
inductive GoErr where
  | iterDone
  | msg (s : String)
deriving DecidableEq, Repr

/-- One row cell: decoding it into a destination either succeeds with a
`Value` or fails with a decode-error message. -/
inductive Cell where
  | val (v : Value)
  | bad (e : String)
deriving DecidableEq, Repr

/-- A result row: named cells in column order. -/
structure Row where
  cells : List (String × Cell)
deriving DecidableEq, Repr, Inhabited

/-- Model of `row.Column(0, dest)`: decode the first column of the row. -/
def Row.column0 (row : Row) : Except GoErr Value :=
  match row.cells with
  | [] => .error (.msg "column index 0 out of range")
  | (_, .bad e) :: _ => .error (.msg e)
  | (_, .val v) :: _ => .ok v

/-- Model of `row.ColumnByName(name, dest)`: decode the named column of the row. -/
def Row.columnByName (row : Row) (name : String) : Except GoErr Value :=
  match row.cells.find? (fun c => c.fst == name) with
  | none => .error (.msg ("column " ++ name ++ " not found"))
  | some (_, .bad e) => .error (.msg e)
  | some (_, .val v) => .ok v

/-- The stream a Spanner row iterator produces: the rows yielded in
order, then termination — `iterator.Done` when `terminalErr = none`,
otherwise the error message. -/
structure QueryResult where
  rows : List Row
  terminalErr : Option String

/-- The first `iter.Next()` call on a fresh iterator. -/
def QueryResult.first (q : QueryResult) : Except GoErr Row :=
  match q.rows with
  | r :: _ => .ok r
  | [] =>
    match q.terminalErr with
    | some e => .error (.msg e)
    | none => .error .iterDone

/-- One reflected field of a key struct: Go field name, the value of its
`spanner:"..."` tag (`""` when the tag is absent), and the field value. -/
structure KeyField where
  name : String
  tag : String
  value : Value
deriving DecidableEq, Repr

/-- A dynamic key argument (`key interface{}`): either a struct (or
pointer to one, which reflection dereferences) with its fields, or a
value of any non-struct kind, carrying its type name for the error. -/
inductive KeyValue where
  | strukt (fields : List KeyField)
  | nonStruct (typeName : String)
deriving DecidableEq, Repr

/-- Go map insertion: overwrite the binding when the key is present,
append it otherwise. -/
def mapPut : List (String × Value) → String → Value → List (String × Value)
  | [], k, v => [(k, v)]
  | (k', v') :: rest, k, v =>
    if k' = k then (k, v) :: rest else (k', v') :: mapPut rest k v

/-- Go map lookup `m[k]`: `none` models the nil `interface{}` zero value
returned when the key is absent. -/
def mapGet (m : List (String × Value)) (k : String) : Option Value :=
  (m.find? (fun p => p.fst == k)).map (fun p => p.snd)

/-- Go `strings.ToLower`, character by character over the string's
contents. -/
def stringToLower (s : String) : String :=
  ⟨s.data.map Char.toLower⟩

/-- Source `structToMap`: reflect over the key struct's fields and build the
column-name → value map; the column name is the `spanner` tag when
non-empty, else the lower-cased field name. Fails when the key is not a
struct. -/
def structToMap : KeyValue → Except GoErr (List (String × Value))
  | .nonStruct tn =>
    .error (.msg ("key precisa ser struct, recebido: " ++ tn))
  | .strukt fields =>
    .ok (fields.foldl
      (fun m f =>
        let name := if f.tag = "" then stringToLower f.name else f.tag
        mapPut m name f.value)
      [])

/-- Go `strings.Join(elems, sep)`. -/
def stringsJoin (elems : List String) (sep : String) : String :=
  match elems with
  | [] => ""
  | e :: rest => rest.foldl (fun acc s => acc ++ sep ++ s) e

/-- Source `buildColumnList`: `*` for an empty column list, else the
comma-joined columns. -/
def buildColumnList (columns : List String) : String :=
  if columns.length = 0 then "*" else stringsJoin columns ", "

/-- Source `buildWhereClause`: `k1 = @k1 AND k2 = @k2 ...` over the key
columns. -/
def buildWhereClause (keys : List String) : String :=
  stringsJoin (keys.map (fun k => k ++ " = @" ++ k)) " AND "

/-- A parameterized SQL statement (`spanner.Statement`). -/
structure Statement where
  SQL : String
  Params : List (String × Value)
deriving DecidableEq, Repr

/-- A Spanner mutation: a key-tuple delete built by `spanner.Delete`, or
a caller-built write (the shape `mutationBuilder` returns). A key tuple
component is `none` when the nil `interface{}` was placed there. -/
inductive Mutation where
  | delete (table : String) (key : List (Option Value))
  | write (kind : String) (table : String)
      (columns : List String) (values : List Value)
deriving DecidableEq, Repr

/-- The generic repository configuration: table name, ordered
primary-key columns, and the caller-supplied row decoder and mutation
builder. The Spanner client is passed to each operation as an explicit
capability argument. -/
structure SpannerRepository (T : Type) where
  tableName : String
  primaryKeys : List String
  rowMapper : Row → Except String T
  mutationBuilder : T → Mutation

variable {T : Type}

/-- Source `FindByID`: extract the key columns, build
`SELECT <columns> FROM <table> WHERE <pk equality predicate>`, run it,
decode the first row. `exec` is the client's query capability. -/
def FindByID [Inhabited T] (r : SpannerRepository T)
    (exec : Statement → QueryResult) (key : KeyValue)
    (columns : List String) : T × Bool × Option GoErr :=
  match structToMap key with
  | .error e => (default, false, some e)
  | .ok params =>
    let stmt : Statement :=
      { SQL := "SELECT " ++ buildColumnList columns ++ " FROM "
          ++ r.tableName ++ " WHERE " ++ buildWhereClause r.primaryKeys
        Params := params }
    match (exec stmt).first with
    | .error e => (default, false, some e)
    | .ok row =>
      match r.rowMapper row with
      | .error e => (default, false, some (.msg e))
      | .ok entity => (entity, true, none)

/-- Source `Exists`: delegate to `FindByID` projecting the primary-key columns
and keep the found flag and error. -/
def Exists [Inhabited T] (r : SpannerRepository T)
    (exec : Statement → QueryResult) (key : KeyValue) :
    Bool × Option GoErr :=
  let res := FindByID r exec key r.primaryKeys
  (res.2.1, res.2.2)

/-- Source `Save`: build the mutation with the injected builder and apply it
immediately through the client's apply capability. -/
def Save (r : SpannerRepository T)
    (applyM : List Mutation → Option GoErr) (entity : T) : Option GoErr :=
  let m := r.mutationBuilder entity
  applyM [m]

/-- Source `Update`: identical body to `Save` — build the mutation with the
injected builder and apply it immediately. -/
def Update (r : SpannerRepository T)
    (applyM : List Mutation → Option GoErr) (entity : T) : Option GoErr :=
  let m := r.mutationBuilder entity
  applyM [m]

/-- Source `Delete`: extract the key columns, assemble the key tuple in
`primaryKeys` order (a missing map entry contributes the nil zero
value), and apply a delete mutation immediately. -/
def Delete (r : SpannerRepository T)
    (applyM : List Mutation → Option GoErr) (key : KeyValue) :
    Option GoErr :=
  match structToMap key with
  | .error e => some e
  | .ok params =>
    let values := r.primaryKeys.map (fun k => mapGet params k)
    let m := Mutation.delete r.tableName values
    applyM [m]

/-- The loop body shared by `FindAll` and `FindByIDs`: decode each
yielded row with the injected row mapper, failing on the first decode
error. -/
def decodeRows (rm : Row → Except String T) :
    List Row → Except GoErr (List T)
  | [] => .ok []
  | row :: rest =>
    match rm row with
    | .error e => .error (.msg e)
    | .ok ent =>
      match decodeRows rm rest with
      | .error e => .error e
      | .ok tail => .ok (ent :: tail)

/-- The key-tuple construction loop of `FindByIDs`: for each key value,
extract its columns and rebuild the ordered tuple following
`primaryKeys` order (a missing map entry contributes the nil zero
value). -/
def buildKeys (r : SpannerRepository T) :
    List KeyValue → Except GoErr (List (List (Option Value)))
  | [] => .ok []
  | k :: rest =>
    match structToMap k with
    | .error e => .error e
    | .ok params =>
      let values := r.primaryKeys.map (fun col => mapGet params col)
      match buildKeys r rest with
      | .error e => .error e
      | .ok tail => .ok (values :: tail)

/-- Source `FindByIDs`: build the key set from the key values and issue one
keyed read (`client.Single().Read`), decoding every yielded row. `read`
is the client's keyed-read capability, taking the table name, the key
set and the projected columns. -/
def FindByIDs (r : SpannerRepository T)
    (read : String → List (List (Option Value)) → List String → QueryResult)
    (keys : List KeyValue) (columns : List String) :
    Except GoErr (List T) :=
  match buildKeys r keys with
  | .error e => .error e
  | .ok spannerKeys =>
    let q := read r.tableName spannerKeys columns
    match decodeRows r.rowMapper q.rows with
    | .error e => .error e
    | .ok results =>
      match q.terminalErr with
      | some e => .error (.msg e)
      | none => .ok results

/-- The `pageToken == nil || pageToken == ""` test of `FindPage`: the
dynamic comparison with `""` is true exactly for the string value `""`. -/
def tokenIsEmpty : Option Value → Bool
  | none => true
  | some (.strV s) => s == ""
  | some _ => false

/-- The first-page statement of `FindPage` (no page token):
`SELECT <columns> FROM <table> ORDER BY <pk columns> LIMIT @limit` with
`limit` bound to the page size. -/
def firstPageStmt (r : SpannerRepository T) (pageSize : Int)
    (columns : List String) : Statement :=
  { SQL := "SELECT " ++ buildColumnList columns ++ " FROM " ++ r.tableName
      ++ " ORDER BY " ++ stringsJoin r.primaryKeys ", " ++ " LIMIT @limit"
    Params := [("limit", Value.intV pageSize)] }

/-- The follow-up-page statement of `FindPage` (with a page token):
`SELECT <columns> FROM <table> WHERE <first pk column> > @pageToken
ORDER BY <pk columns> LIMIT @limit`. -/
def nextPageStmt (r : SpannerRepository T) (pageSize : Int) (tok : Value)
    (columns : List String) (pk0 : String) : Statement :=
  { SQL := "SELECT " ++ buildColumnList columns ++ " FROM " ++ r.tableName
      ++ " WHERE " ++ pk0 ++ " > @pageToken ORDER BY "
      ++ stringsJoin r.primaryKeys ", " ++ " LIMIT @limit"
    Params := [("pageToken", tok), ("limit", Value.intV pageSize)] }

/-- The row loop of `FindPage`: decode each row, then read the first
primary-key column of that row into the running cursor. The
`r.primaryKeys[0]` access panics (`Option.none` here) when the
primary-key list is empty. -/
def pageLoop (rm : Row → Except String T) (pks : List String) :
    List Row → List T → Option Value →
    Option (Except GoErr (List T × Option Value))
  | [], acc, last => some (.ok (acc, last))
  | row :: rest, acc, _last =>
    match rm row with
    | .error e => some (.error (.msg e))
    | .ok ent =>
      match pks.head? with
      | none => none
      | some pk0 =>
        match row.columnByName pk0 with
        | .error e => some (.error e)
        | .ok v => pageLoop rm pks rest (acc ++ [ent]) (some v)

/-- Execute a `FindPage` statement: run the query, fold the row loop
over the yielded rows starting from an empty page and a nil cursor, and
surface the iterator's terminal error after the last row. -/
def runPageQuery (r : SpannerRepository T)
    (exec : Statement → QueryResult) (stmt : Statement) :
    Option (Except GoErr (List T × Option Value)) :=
  let q := exec stmt
  match pageLoop r.rowMapper r.primaryKeys q.rows [] none with
  | none => none
  | some (.error e) => some (.error e)
  | some (.ok (res, last)) =>
    match q.terminalErr with
    | some e => some (.error (.msg e))
    | none => some (.ok (res, last))

/-- Source `FindPage`: cursor-based pagination. An absent/empty token selects
the first-page statement; otherwise the statement filters on
`r.primaryKeys[0]`, which panics (`Option.none`) when the primary-key
list is empty. -/
def FindPage (r : SpannerRepository T)
    (exec : Statement → QueryResult) (pageSize : Int)
    (pageToken : Option Value) (columns : List String) :
    Option (Except GoErr (List T × Option Value)) :=
  if tokenIsEmpty pageToken then
    runPageQuery r exec (firstPageStmt r pageSize columns)
  else
    match r.primaryKeys.head?, pageToken with
    | some pk0, some tok =>
      runPageQuery r exec (nextPageStmt r pageSize tok columns pk0)
    | _, _ => none

/-- The body shared by `SaveReturningKey` and `SaveReturningKeyTx`: run
the caller's INSERT statement on a transaction's query capability, take
the first resulting row and decode its first column into the
destination. The returned value is the destination's final content. -/
def saveReturningKeyBody (txQuery : Statement → QueryResult)
    (insertSQL : String) (params : List (String × Value)) :
    Except GoErr Value :=
  let stmt : Statement := { SQL := insertSQL, Params := params }
  match (txQuery stmt).first with
  | .error e => .error e
  | .ok row => row.column0

/-- An open read-write transactional resource, exposing its query
capability. -/
structure RwTxn where
  query : Statement → QueryResult

/-- The client's `ReadWriteTransaction` capability as the repository's
own documentation describes it: open a transaction, run the function,
commit when it returns no error and roll back otherwise. The boolean
records whether a commit happened. -/
def clientReadWriteTransaction (txn : RwTxn)
    (f : RwTxn → Except GoErr Value) : Except GoErr Value × Bool :=
  match f txn with
  | .error e => (.error e, false)
  | .ok v => (.ok v, true)

/-- Source `SaveReturningKey`: run the key-returning insert inside an
internally opened `ReadWriteTransaction`, which commits on success. -/
def SaveReturningKey (_r : SpannerRepository T) (freshTxn : RwTxn)
    (insertSQL : String) (params : List (String × Value)) :
    Except GoErr Value × Bool :=
  clientReadWriteTransaction freshTxn
    (fun txn => saveReturningKeyBody txn.query insertSQL params)

/-- Source `SaveReturningKeyTx`: run the key-returning insert on the caller's
already-open transaction; no commit of its own. -/
def SaveReturningKeyTx (_r : SpannerRepository T) (txn : RwTxn)
    (insertSQL : String) (params : List (String × Value)) :
    Except GoErr Value :=
  saveReturningKeyBody txn.query insertSQL params

/-- A `Transaction` interface value as the `*Tx` methods see it: either
the concrete `*SpannerTransaction` adapter, or a value of any other
dynamic type (carrying its type name). -/
inductive Transaction where
  | spanner
  | other (typeName : String)
deriving DecidableEq, Repr

/-- The error returned when the dynamic downcast to
`*SpannerTransaction` fails. -/
def invalidTxErr : GoErr := .msg "invalid transaction type"

/-- Source `SaveTx`: downcast the handle to `*SpannerTransaction`, build the
mutation with the injected builder and buffer it on the transaction's
underlying resource (`BufferWrite` appends to `buf`). -/
def SaveTx (r : SpannerRepository T) (tx : Transaction) (entity : T)
    (buf : List Mutation) : List Mutation × Option GoErr :=
  match tx with
  | .other _ => (buf, some invalidTxErr)
  | .spanner => (buf ++ [r.mutationBuilder entity], none)

/-- Source `UpdateTx`: identical body to `SaveTx` — downcast, build the
mutation, buffer it. -/
def UpdateTx (r : SpannerRepository T) (tx : Transaction) (entity : T)
    (buf : List Mutation) : List Mutation × Option GoErr :=
  match tx with
  | .other _ => (buf, some invalidTxErr)
  | .spanner => (buf ++ [r.mutationBuilder entity], none)

/-- Source `DeleteTx`: downcast, extract the key columns, assemble the key
tuple in `primaryKeys` order and buffer a delete mutation. -/
def DeleteTx (r : SpannerRepository T) (tx : Transaction) (key : KeyValue)
    (buf : List Mutation) : List Mutation × Option GoErr :=
  match tx with
  | .other _ => (buf, some invalidTxErr)
  | .spanner =>
    match structToMap key with
    | .error e => (buf, some e)
    | .ok params =>
      let values := r.primaryKeys.map (fun k => mapGet params k)
      (buf ++ [Mutation.delete r.tableName values], none)

/-- The client's `ReadWriteTransaction` capability for mutation
buffering, as the repository's own documentation describes it: run the
function on a fresh empty buffer; on a nil error the buffered mutations
are committed into the database state, otherwise the buffer is
discarded and the error returned. The database state is the list of
mutations applied so far. -/
def spannerClientRWT (db : List Mutation)
    (f : List Mutation → List Mutation × Option GoErr) :
    List Mutation × Option GoErr :=
  match f [] with
  | (_, some e) => (db, some e)
  | (buf, none) => (db ++ buf, none)

/-- Source `SpannerTransactionManager.RunInTransaction`: wrap the underlying
transaction in a `*SpannerTransaction` handle and run the unit of work
on it, delegating commit/rollback to the client capability. The unit of
work interacts with the transaction's buffer. -/
def RunInTransaction (db : List Mutation)
    (fn : Transaction → List Mutation → List Mutation × Option GoErr) :
    List Mutation × Option GoErr :=
  spannerClientRWT db (fun buf => fn Transaction.spanner buf)

/-- Rendering of the spec's join, by direct recursion: the elements
separated by `sep`, with no leading or trailing separator. Stated from
the spec's words, to be compared with the source's `stringsJoin`. -/
def specJoin (sep : String) : List String → String
  | [] => ""
  | [c] => c
  | c :: rest => c ++ sep ++ specJoin sep rest

/-- The spec's `columnList` contract: a comma-joined column list, or `*`
when the list is empty. Stated from the spec's words. -/
def specColumnList (columns : List String) : String :=
  if columns.isEmpty then "*" else specJoin ", " columns

/-- The spec's `equalityPredicate` contract: `col1 = @col1 AND
col2 = @col2 ...`, one named parameter per column, the parameter name
equal to the column name. Stated from the spec's words. -/
def specEqualityPredicate (keys : List String) : String :=
  specJoin " AND " (keys.map (fun k => k ++ " = @" ++ k))

theorem foldl_sep_append (sep x : String) :
    ∀ (l : List String) (y : String),
      l.foldl (fun acc s => acc ++ sep ++ s) (x ++ y)
        = x ++ l.foldl (fun acc s => acc ++ sep ++ s) y := by
  intro l
  induction l with
  | nil => intro y; rfl
  | cons s l ih =>
    intro y
    simp only [List.foldl_cons]
    have h1 : x ++ y ++ sep ++ s = x ++ (y ++ sep ++ s) := by
      rw [String.append_assoc (x ++ y), String.append_assoc x,
        String.append_assoc y]
    rw [h1, ih]

theorem stringsJoin_eq_specJoin (sep : String) :
    ∀ l : List String, stringsJoin l sep = specJoin sep l := by
  intro l
  induction l with
  | nil => rfl
  | cons c rest ih =>
    cases rest with
    | nil => rfl
    | cons b l' =>
      have h2 : stringsJoin (c :: b :: l') sep
          = l'.foldl (fun acc s => acc ++ sep ++ s) (c ++ sep ++ b) := rfl
      have h3 : l'.foldl (fun acc s => acc ++ sep ++ s) b
          = stringsJoin (b :: l') sep := rfl
      rw [h2, foldl_sep_append sep (c ++ sep) l' b, h3, ih]
      rfl

/-- A concrete repository over the `Users` table with the single
primary-key column `user_id`, the identity row mapper and a fixed
insert-or-update builder; used to instantiate theorems on concrete
inputs. -/
def demoRepo : SpannerRepository Row :=
  { tableName := "Users"
    primaryKeys := ["user_id"]
    rowMapper := fun row => .ok row
    mutationBuilder := fun _ =>
      .write "InsertOrUpdate" "Users" ["user_id"] [.strV "u1"] }

/-- A concrete entity row for the demo repository. -/
def demoRow : Row := ⟨[("user_id", .val (.strV "u1"))]⟩

/-- A concrete well-formed key struct for the demo repository, tagged
onto the `user_id` column. -/
def demoKey : KeyValue := .strukt [⟨"ID", "user_id", .strV "u1"⟩]

/-- C7: `buildColumnList` returns `*` for an empty column list and the
comma-joined list otherwise, and `buildWhereClause` renders
`col1 = @col1 AND col2 = @col2 ...` over the key columns, one named
parameter per column with the parameter name equal to the column name:
both coincide with the spec-side renderings. -/
theorem buildColumnList_buildWhereClause_match_spec :
    (∀ columns : List String, buildColumnList columns = specColumnList columns)
    ∧ (∀ keys : List String, buildWhereClause keys = specEqualityPredicate keys) := by
  constructor
  · intro columns
    cases columns with
    | nil => rfl
    | cons c rest =>
      show stringsJoin (c :: rest) ", " = specJoin ", " (c :: rest)
      exact stringsJoin_eq_specJoin ", " (c :: rest)
  · intro keys
    exact stringsJoin_eq_specJoin " AND " (keys.map (fun k => k ++ " = @" ++ k))

/-- C6: `Update` is semantically identical to `Save` — both call the
injected mutation builder on the entity and immediately apply exactly
that single mutation; neither consults any read capability first, so
`Update` performs no prior-existence check. -/
theorem update_equals_save {T : Type} :
    ∀ (r : SpannerRepository T) (applyM : List Mutation → Option GoErr) (e : T),
      Update r applyM e = Save r applyM e
      ∧ Save r applyM e = applyM [r.mutationBuilder e] :=
  fun _ _ _ => ⟨rfl, rfl⟩

/-- C5: a Transaction handle of any dynamic type other than the
concrete `*SpannerTransaction` adapter makes `SaveTx`, `UpdateTx` and
`DeleteTx` return the invalid-transaction-type error with the buffer
untouched; through the concrete adapter each buffers exactly the
mutation its non-transactional counterpart applies immediately. -/
theorem txWrites_downcast_and_buffer {T : Type} :
    ∀ (r : SpannerRepository T) (name : String) (buf : List Mutation)
      (e : T) (key : KeyValue),
      (SaveTx r (.other name) e buf = (buf, some invalidTxErr)
        ∧ UpdateTx r (.other name) e buf = (buf, some invalidTxErr)
        ∧ DeleteTx r (.other name) key buf = (buf, some invalidTxErr))
      ∧ (∃ m, SaveTx r .spanner e buf = (buf ++ [m], none)
          ∧ UpdateTx r .spanner e buf = (buf ++ [m], none)
          ∧ (∀ applyM, Save r applyM e = applyM [m])
          ∧ (∀ applyM, Update r applyM e = applyM [m]))
      ∧ (∀ params, structToMap key = .ok params →
          ∃ m, DeleteTx r .spanner key buf = (buf ++ [m], none)
            ∧ ∀ applyM, Delete r applyM key = applyM [m]) := by
  intro r name buf e key
  refine ⟨⟨rfl, rfl, rfl⟩, ⟨r.mutationBuilder e, rfl, rfl, fun _ => rfl, fun _ => rfl⟩, ?_⟩
  intro params h
  refine ⟨.delete r.tableName (r.primaryKeys.map (fun k => mapGet params k)), ?_, ?_⟩
  · show (match structToMap key with
      | .error e => (buf, some e)
      | .ok params =>
        (buf ++ [Mutation.delete r.tableName
          (r.primaryKeys.map (fun k => mapGet params k))], none)) = _
    rw [h]
  · intro applyM
    show (match structToMap key with
      | .error e => some e
      | .ok params =>
        applyM [Mutation.delete r.tableName
          (r.primaryKeys.map (fun k => mapGet params k))]) = _
    rw [h]

/-- Witness for C5 at a concrete repository, entity and key. -/
theorem txWrites_downcast_and_buffer_witness :
    ∃ m, DeleteTx demoRepo .spanner demoKey [] = ([] ++ [m], none)
      ∧ ∀ applyM, Delete demoRepo applyM demoKey = applyM [m] :=
  (txWrites_downcast_and_buffer demoRepo "plainTx" [] demoRow demoKey).2.2
    [("user_id", .strV "u1")] rfl

/-- C3: `RunInTransaction` runs the unit of work exactly once, on a
fresh buffer, through the concrete transaction handle; when the unit of
work returns an error the database state is left unchanged (rollback:
freshly buffered mutations are not visible) and that same error is
returned; when it returns no error the buffered mutations are committed
into the state and are visible afterward. -/
theorem runInTransaction_commit_rollback :
    ∀ (db : List Mutation)
      (fn : Transaction → List Mutation → List Mutation × Option GoErr)
      (buf : List Mutation),
      (∀ e, fn .spanner [] = (buf, some e) →
        RunInTransaction db fn = (db, some e)
        ∧ ∀ m, m ∈ buf → m ∉ db → m ∉ (RunInTransaction db fn).fst)
      ∧ (fn .spanner [] = (buf, none) →
        RunInTransaction db fn = (db ++ buf, none)
        ∧ ∀ m, m ∈ buf → m ∈ (RunInTransaction db fn).fst) := by
  intro db fn buf
  constructor
  · intro e h
    have heq : RunInTransaction db fn = (db, some e) := by
      show (match fn Transaction.spanner [] with
        | (_, some e) => (db, some e)
        | (buf, none) => (db ++ buf, none)) = _
      rw [h]
    exact ⟨heq, fun m _ hnot => by rw [heq]; exact hnot⟩
  · intro h
    have heq : RunInTransaction db fn = (db ++ buf, none) := by
      show (match fn Transaction.spanner [] with
        | (_, some e) => (db, some e)
        | (buf, none) => (db ++ buf, none)) = _
      rw [h]
    refine ⟨heq, fun m hm => ?_⟩
    rw [heq]
    exact List.mem_append_right db hm

/-- Witness for C3: a unit of work buffering one write through `SaveTx`
commits it, and a failing unit of work leaves the state unchanged while
its error is surfaced. -/
theorem runInTransaction_commit_rollback_witness :
    RunInTransaction [] (fun tx b => SaveTx demoRepo tx demoRow b)
      = ([Mutation.write "InsertOrUpdate" "Users" ["user_id"] [.strV "u1"]], none)
    ∧ RunInTransaction [Mutation.delete "Users" [some (.strV "u1")]]
        (fun tx b =>
          ((SaveTx demoRepo tx demoRow b).1, some (GoErr.msg "forced failure")))
      = ([Mutation.delete "Users" [some (.strV "u1")]], some (.msg "forced failure")) :=
  ⟨((runInTransaction_commit_rollback []
      (fun tx b => SaveTx demoRepo tx demoRow b)
      [Mutation.write "InsertOrUpdate" "Users" ["user_id"] [.strV "u1"]]).2 rfl).1,
   ((runInTransaction_commit_rollback [Mutation.delete "Users" [some (.strV "u1")]]
      (fun tx b =>
        ((SaveTx demoRepo tx demoRow b).1, some (GoErr.msg "forced failure")))
      [Mutation.write "InsertOrUpdate" "Users" ["user_id"] [.strV "u1"]]).1
      (.msg "forced failure") rfl).1⟩

/-- C1: evaluating `FindByID` at a key that was never saved — the query
yields no row, so the first `iter.Next()` returns the `iterator.Done`
sentinel — the code returns `found = false` together with that non-nil
error instead of a nil error; and an execution failure likewise comes
back with `found = false`, so `found = false` is not reserved to the
no-row case. -/
theorem findByID_noRow_yields_iterDone_error :
    FindByID demoRepo (fun _ => { rows := [], terminalErr := none })
      (.strukt [⟨"ID", "user_id", .strV "missing"⟩]) ["user_id"]
      = (default, false, some GoErr.iterDone)
    ∧ FindByID demoRepo (fun _ => { rows := [], terminalErr := some "boom" })
        (.strukt [⟨"ID", "user_id", .strV "missing"⟩]) ["user_id"]
        = (default, false, some (GoErr.msg "boom")) :=
  ⟨rfl, rfl⟩

/-- C9: `FindByIDs` with an empty key list builds the empty key set and
issues one keyed read; whenever the read capability honours the
empty-key-set contract (no rows, clean termination) the call returns the
empty result list and a nil error. -/
theorem findByIDs_emptyKeys_ok {T : Type} :
    ∀ (r : SpannerRepository T)
      (read : String → List (List (Option Value)) → List String → QueryResult)
      (columns : List String),
      (read r.tableName [] columns).rows = [] →
      (read r.tableName [] columns).terminalErr = none →
      FindByIDs r read [] columns = .ok [] := by
  intro r read columns h1 h2
  have hstep : FindByIDs r read [] columns =
      (match decodeRows r.rowMapper (read r.tableName [] columns).rows with
       | .error e => .error e
       | .ok results =>
         match (read r.tableName [] columns).terminalErr with
         | some e => .error (.msg e)
         | none => .ok results) := rfl
  rw [hstep, h1, h2]
  rfl

/-- Witness for C9 at a concrete repository and read capability. -/
theorem findByIDs_emptyKeys_ok_witness :
    FindByIDs demoRepo (fun _ _ _ => { rows := [], terminalErr := none })
      [] ["user_id"] = .ok [] :=
  findByIDs_emptyKeys_ok demoRepo
    (fun _ _ _ => { rows := [], terminalErr := none }) ["user_id"] rfl rfl

theorem saveReturningKeyBody_noRow (txq : Statement → QueryResult)
    (sql : String) (params : List (String × Value))
    (h : (txq { SQL := sql, Params := params }).rows = []) :
    saveReturningKeyBody txq sql params
      = match (txq { SQL := sql, Params := params }).terminalErr with
        | some e => Except.error (GoErr.msg e)
        | none => Except.error GoErr.iterDone := by
  unfold saveReturningKeyBody QueryResult.first
  dsimp only
  rw [h]
  cases (txq { SQL := sql, Params := params }).terminalErr <;> rfl

theorem saveReturningKeyBody_row (txq : Statement → QueryResult)
    (sql : String) (params : List (String × Value)) (row : Row)
    (rest : List Row)
    (h : (txq { SQL := sql, Params := params }).rows = row :: rest) :
    saveReturningKeyBody txq sql params = row.column0 := by
  unfold saveReturningKeyBody QueryResult.first
  dsimp only
  rw [h]

theorem saveReturningKey_run {T : Type} (r : SpannerRepository T)
    (txn : RwTxn) (sql : String) (params : List (String × Value)) :
    SaveReturningKey r txn sql params
      = match saveReturningKeyBody txn.query sql params with
        | Except.error e => (Except.error e, false)
        | Except.ok v => (Except.ok v, true) := rfl

/-- C8: the key-returning insert errors when the statement yields zero
rows or the first column fails to decode, and on success delivers the
first column of the first row; `SaveReturningKey` wraps the work in its
own `ReadWriteTransaction`, which commits exactly when the body
succeeds (the boolean), while `SaveReturningKeyTx` runs the same body
directly on the caller's open transaction and has no commit of its
own. -/
theorem saveReturningKey_contract {T : Type} :
    ∀ (r : SpannerRepository T) (txn : RwTxn) (sql : String)
      (params : List (String × Value)),
      SaveReturningKeyTx r txn sql params
        = saveReturningKeyBody txn.query sql params
      ∧ ((txn.query { SQL := sql, Params := params }).rows = [] →
          ∃ e, SaveReturningKeyTx r txn sql params = .error e
            ∧ SaveReturningKey r txn sql params = (.error e, false))
      ∧ (∀ row rest e,
          (txn.query { SQL := sql, Params := params }).rows = row :: rest →
          row.column0 = .error e →
          SaveReturningKeyTx r txn sql params = .error e
            ∧ SaveReturningKey r txn sql params = (.error e, false))
      ∧ (∀ row rest v,
          (txn.query { SQL := sql, Params := params }).rows = row :: rest →
          row.column0 = .ok v →
          SaveReturningKeyTx r txn sql params = .ok v
            ∧ SaveReturningKey r txn sql params = (.ok v, true)) := by
  intro r txn sql params
  refine ⟨rfl, ?_, ?_, ?_⟩
  · intro hrows
    cases hterm : (txn.query { SQL := sql, Params := params }).terminalErr with
    | some e =>
      have hb : saveReturningKeyBody txn.query sql params
          = Except.error (GoErr.msg e) := by
        rw [saveReturningKeyBody_noRow txn.query sql params hrows, hterm]
      refine ⟨GoErr.msg e, hb, ?_⟩
      rw [saveReturningKey_run, hb]
    | none =>
      have hb : saveReturningKeyBody txn.query sql params
          = Except.error GoErr.iterDone := by
        rw [saveReturningKeyBody_noRow txn.query sql params hrows, hterm]
      refine ⟨GoErr.iterDone, hb, ?_⟩
      rw [saveReturningKey_run, hb]
  · intro row rest e hrows hcol
    have hb : saveReturningKeyBody txn.query sql params = Except.error e := by
      rw [saveReturningKeyBody_row txn.query sql params row rest hrows, hcol]
    refine ⟨hb, ?_⟩
    rw [saveReturningKey_run, hb]
  · intro row rest v hrows hcol
    have hb : saveReturningKeyBody txn.query sql params = Except.ok v := by
      rw [saveReturningKeyBody_row txn.query sql params row rest hrows, hcol]
    refine ⟨hb, ?_⟩
    rw [saveReturningKey_run, hb]

/-- Witness for C8: one returned row commits and delivers its first
column; zero returned rows produce an error without a commit. -/
theorem saveReturningKey_contract_witness :
    SaveReturningKey demoRepo
      ⟨fun _ => { rows := [⟨[("user_id", .val (.intV 7))]⟩], terminalErr := none }⟩
      "INSERT INTO Users (email) VALUES (@e) THEN RETURN user_id" []
      = (.ok (.intV 7), true)
    ∧ ∃ e, SaveReturningKey demoRepo
        ⟨fun _ => { rows := [], terminalErr := none }⟩
        "INSERT INTO Users (email) VALUES (@e) THEN RETURN user_id" []
        = (.error e, false) := by
  constructor
  · exact ((saveReturningKey_contract demoRepo
      ⟨fun _ => { rows := [⟨[("user_id", .val (.intV 7))]⟩], terminalErr := none }⟩
      "INSERT INTO Users (email) VALUES (@e) THEN RETURN user_id" []).2.2.2
      ⟨[("user_id", .val (.intV 7))]⟩ [] (.intV 7) rfl rfl).2
  · obtain ⟨e, he⟩ := (saveReturningKey_contract demoRepo
      ⟨fun _ => { rows := [], terminalErr := none }⟩
      "INSERT INTO Users (email) VALUES (@e) THEN RETURN user_id" []).2.1 rfl
    exact ⟨e, he.2⟩

/-- C4 counterexample: a struct key whose single field maps to `name`
provides no mapping for the primary-key column `user_id`, yet `Delete`
does not fail — it applies a delete mutation whose key tuple carries the
nil value in the `user_id` position and returns a nil error. -/
theorem delete_missingMapping_succeeds :
    structToMap (.strukt [⟨"Name", "", .strV "bob"⟩])
      = .ok [("name", .strV "bob")]
    ∧ mapGet [("name", .strV "bob")] "user_id" = none
    ∧ Delete demoRepo
        (fun ms => if ms = [Mutation.delete "Users" [none]] then none
          else some (.msg "unexpected mutation"))
        (.strukt [⟨"Name", "", .strV "bob"⟩]) = none := by
  refine ⟨rfl, rfl, ?_⟩
  decide

/-- C4 amended: the key-consuming operations fail when the key value is
not a struct (the key-codec error propagates through `FindByID`,
`Exists`, `Delete`, `DeleteTx` and `FindByIDs`); but a struct key that
lacks a mapping for some primary-key column raises no error — `Delete`
applies its mutation with the nil value silently occupying that
column's key-tuple position. -/
theorem keyShape_error_behaviour {T : Type} [Inhabited T] :
    ∀ (r : SpannerRepository T) (tn : String)
      (exec : Statement → QueryResult)
      (read : String → List (List (Option Value)) → List String → QueryResult)
      (applyM : List Mutation → Option GoErr)
      (buf : List Mutation) (keys : List KeyValue) (columns : List String),
      (FindByID r exec (.nonStruct tn) columns
        = (default, false, some (.msg ("key precisa ser struct, recebido: " ++ tn)))
      ∧ Exists r exec (.nonStruct tn)
        = (false, some (.msg ("key precisa ser struct, recebido: " ++ tn)))
      ∧ Delete r applyM (.nonStruct tn)
        = some (.msg ("key precisa ser struct, recebido: " ++ tn))
      ∧ DeleteTx r .spanner (.nonStruct tn) buf
        = (buf, some (.msg ("key precisa ser struct, recebido: " ++ tn)))
      ∧ FindByIDs r read (.nonStruct tn :: keys) columns
        = .error (.msg ("key precisa ser struct, recebido: " ++ tn)))
      ∧ (∀ (key : KeyValue) (params : List (String × Value)) (col : String),
          structToMap key = .ok params →
          mapGet params col = none →
          col ∈ r.primaryKeys →
          Delete r applyM key
            = applyM [Mutation.delete r.tableName
                (r.primaryKeys.map (fun k => mapGet params k))]
          ∧ none ∈ r.primaryKeys.map (fun k => mapGet params k)) := by
  intro r tn exec read applyM buf keys columns
  refine ⟨⟨rfl, rfl, rfl, rfl, rfl⟩, ?_⟩
  intro key params col hmap hget hmem
  constructor
  · show (match structToMap key with
      | .error e => some e
      | .ok params =>
        applyM [Mutation.delete r.tableName
          (r.primaryKeys.map (fun k => mapGet params k))]) = _
    rw [hmap]
  · exact List.mem_map.mpr ⟨col, hmem, hget⟩

/-- Witness for C4's amended statement at a concrete repository and a
key struct missing the `user_id` mapping. -/
theorem keyShape_error_behaviour_witness :
    Delete demoRepo (fun _ => none) (.strukt [⟨"Name", "", .strV "bob"⟩])
      = (fun _ => (none : Option GoErr))
          [Mutation.delete "Users" [mapGet [("name", .strV "bob")] "user_id"]]
    ∧ none ∈ ["user_id"].map
        (fun k => mapGet [("name", .strV "bob")] k) :=
  ((keyShape_error_behaviour demoRepo "string"
      (fun _ => { rows := [], terminalErr := none })
      (fun _ _ _ => { rows := [], terminalErr := none })
      (fun _ => none) [] [] ["user_id"]).2
    (.strukt [⟨"Name", "", .strV "bob"⟩]) [("name", .strV "bob")]
    "user_id" rfl rfl (by decide))

theorem pageLoop_isSome {T : Type} (rm : Row → Except String T)
    (pks : List String) (pk0 : String) (hpk : pks.head? = some pk0) :
    ∀ (rows : List Row) (acc : List T) (last : Option Value),
      (pageLoop rm pks rows acc last).isSome = true := by
  intro rows
  induction rows with
  | nil => intro acc last; rfl
  | cons row rest ih =>
    intro acc last
    unfold pageLoop
    rw [hpk]
    cases hr : rm row with
    | error e => rfl
    | ok ent =>
      dsimp only
      cases hc : row.columnByName pk0 with
      | error e => rfl
      | ok v => exact ih _ _

theorem pageLoop_cursor {T : Type} (rm : Row → Except String T)
    (pks : List String) (pk0 : String) (hpk : pks.head? = some pk0) :
    ∀ (rows : List Row) (acc : List T) (last : Option Value)
      (res : List T) (next : Option Value),
      pageLoop rm pks rows acc last = some (.ok (res, next)) →
      (rows = [] → next = last)
      ∧ (∀ lr, rows.getLast? = some lr →
          ∃ v, lr.columnByName pk0 = .ok v ∧ next = some v) := by
  intro rows
  induction rows with
  | nil =>
    intro acc last res next h
    simp only [pageLoop, Option.some.injEq, Except.ok.injEq,
      Prod.mk.injEq] at h
    refine ⟨fun _ => h.2.symm, fun lr hlr => ?_⟩
    simp at hlr
  | cons row rest ih =>
    intro acc last res next h
    unfold pageLoop at h
    rw [hpk] at h
    cases hr : rm row with
    | error e => rw [hr] at h; simp at h
    | ok ent =>
      rw [hr] at h
      dsimp only at h
      cases hc : row.columnByName pk0 with
      | error e => rw [hc] at h; simp at h
      | ok v =>
        rw [hc] at h
        have ihh := ih (acc ++ [ent]) (some v) res next h
        refine ⟨fun hcontra => by simp at hcontra, fun lr hlr => ?_⟩
        cases rest with
        | nil =>
          have hlr' : lr = row := by
            have hx : row = lr := by simpa using hlr
            exact hx.symm
          subst hlr'
          exact ⟨v, hc, ihh.1 rfl⟩
        | cons b l =>
          rw [List.getLast?_cons_cons] at hlr
          exact ihh.2 lr hlr

theorem runPageQuery_isSome {T : Type} (r : SpannerRepository T)
    (exec : Statement → QueryResult) (stmt : Statement) (pk0 : String)
    (hpk : r.primaryKeys.head? = some pk0) :
    (runPageQuery r exec stmt).isSome = true := by
  unfold runPageQuery
  dsimp only
  have hs := pageLoop_isSome r.rowMapper r.primaryKeys pk0 hpk
    (exec stmt).rows [] none
  cases hp : pageLoop r.rowMapper r.primaryKeys (exec stmt).rows [] none with
  | none => rw [hp] at hs; exact absurd hs (by simp)
  | some out =>
    cases out with
    | error e => rfl
    | ok pr =>
      cases pr with
      | mk res last => cases (exec stmt).terminalErr <;> rfl

/-- C10: `FindPage` indexes `r.primaryKeys[0]` unconditionally — in the
page-token branch when building the statement, and for each decoded row
when extracting the cursor — so with an empty `primaryKeys` list any
call that takes the token branch, or whose query yields a row the row
mapper accepts, panics with an out-of-range index (modelled as `none`)
instead of returning an error; with a non-empty `primaryKeys` list
`FindPage` never panics. -/
theorem findPage_requires_nonempty_pks {T : Type} :
    ∀ (r : SpannerRepository T) (exec : Statement → QueryResult)
      (pageSize : Int) (pageToken : Option Value) (columns : List String),
      (r.primaryKeys = [] → tokenIsEmpty pageToken = false →
        FindPage r exec pageSize pageToken columns = none)
      ∧ (r.primaryKeys = [] → tokenIsEmpty pageToken = true →
          ∀ row rest,
            (exec (firstPageStmt r pageSize columns)).rows = row :: rest →
            (∃ ent, r.rowMapper row = .ok ent) →
            FindPage r exec pageSize pageToken columns = none)
      ∧ (r.primaryKeys ≠ [] →
          (FindPage r exec pageSize pageToken columns).isSome = true) := by
  intro r exec ps tok cols
  refine ⟨?_, ?_, ?_⟩
  · intro h1 h2
    unfold FindPage
    rw [h2, h1]
    cases tok <;> rfl
  · intro h1 h2 row rest hrows hent
    obtain ⟨ent, hent⟩ := hent
    unfold FindPage
    rw [h2]
    show runPageQuery r exec (firstPageStmt r ps cols) = none
    unfold runPageQuery
    dsimp only
    rw [hrows]
    unfold pageLoop
    rw [hent, h1]
    rfl
  · intro hne
    cases hpks : r.primaryKeys with
    | nil => exact absurd hpks hne
    | cons pk0 rest =>
      have hhead : r.primaryKeys.head? = some pk0 := by rw [hpks]; rfl
      unfold FindPage
      cases htok : tokenIsEmpty tok with
      | true =>
        show (runPageQuery r exec (firstPageStmt r ps cols)).isSome = true
        exact runPageQuery_isSome r exec _ pk0 hhead
      | false =>
        rw [hhead]
        cases tok with
        | none => simp [tokenIsEmpty] at htok
        | some t =>
          show (runPageQuery r exec (nextPageStmt r ps t cols pk0)).isSome = true
          exact runPageQuery_isSome r exec _ pk0 hhead

/-- A concrete repository with an empty primary-key list; `FindPage` on
it exercises the out-of-range index. -/
def pklessRepo : SpannerRepository Row :=
  { tableName := "Logs"
    primaryKeys := []
    rowMapper := fun row => .ok row
    mutationBuilder := fun _ => .write "Insert" "Logs" [] [] }

/-- Witness for C10: a token-bearing call on the key-less repository
panics, while the demo repository's call never does. -/
theorem findPage_requires_nonempty_pks_witness :
    FindPage pklessRepo (fun _ => { rows := [], terminalErr := none })
      2 (some (.strV "k1")) [] = none
    ∧ (FindPage demoRepo (fun _ => { rows := [], terminalErr := none })
        2 none ["user_id"]).isSome = true :=
  ⟨(findPage_requires_nonempty_pks pklessRepo
      (fun _ => { rows := [], terminalErr := none }) 2 (some (.strV "k1")) []).1
      rfl rfl,
   (findPage_requires_nonempty_pks demoRepo
      (fun _ => { rows := [], terminalErr := none }) 2 none ["user_id"]).2.2
      (by decide)⟩

/-- C2: with a non-empty primary-key list, `FindPage` executes the
claimed statement — without a token, `SELECT <columns> FROM <table>
ORDER BY <all pk columns> LIMIT @limit` with `limit` bound to the page
size; with a token, the same plus `WHERE <first pk column> >
@pageToken` — and on success the returned next token is the decoded
first-primary-key-column value of the last row of the page, `none` when
the page is empty. -/
theorem findPage_statements_and_cursor {T : Type} :
    ∀ (r : SpannerRepository T) (exec : Statement → QueryResult)
      (pageSize : Int) (pageToken : Option Value) (columns : List String)
      (pk0 : String) (rest : List String),
      r.primaryKeys = pk0 :: rest →
      ((tokenIsEmpty pageToken = true →
        FindPage r exec pageSize pageToken columns
          = runPageQuery r exec (firstPageStmt r pageSize columns)
        ∧ firstPageStmt r pageSize columns
          = { SQL := "SELECT " ++ buildColumnList columns ++ " FROM "
                ++ r.tableName ++ " ORDER BY "
                ++ stringsJoin r.primaryKeys ", " ++ " LIMIT @limit"
              Params := [("limit", Value.intV pageSize)] })
      ∧ (∀ t, pageToken = some t → tokenIsEmpty pageToken = false →
          FindPage r exec pageSize pageToken columns
            = runPageQuery r exec (nextPageStmt r pageSize t columns pk0)
          ∧ nextPageStmt r pageSize t columns pk0
            = { SQL := "SELECT " ++ buildColumnList columns ++ " FROM "
                  ++ r.tableName ++ " WHERE " ++ pk0
                  ++ " > @pageToken ORDER BY "
                  ++ stringsJoin r.primaryKeys ", " ++ " LIMIT @limit"
                Params := [("pageToken", t), ("limit", Value.intV pageSize)] })
      ∧ (∀ stmt res next,
          runPageQuery r exec stmt = some (.ok (res, next)) →
          ((exec stmt).rows = [] → next = none)
          ∧ (∀ lr, (exec stmt).rows.getLast? = some lr →
              ∃ v, lr.columnByName pk0 = .ok v ∧ next = some v))) := by
  intro r exec ps tok cols pk0 rest hpk
  have hhead : r.primaryKeys.head? = some pk0 := by rw [hpk]; rfl
  refine ⟨?_, ?_, ?_⟩
  · intro ht
    constructor
    · unfold FindPage
      rw [ht]
      rfl
    · rfl
  · intro t htok hne
    constructor
    · unfold FindPage
      rw [hne, htok, hhead]
      rfl
    · rfl
  · intro stmt res next h
    unfold runPageQuery at h
    dsimp only at h
    cases hp : pageLoop r.rowMapper r.primaryKeys (exec stmt).rows [] none with
    | none => rw [hp] at h; exact absurd h (by simp)
    | some out =>
      rw [hp] at h
      cases out with
      | error e => simp at h
      | ok pr =>
        cases pr with
        | mk res' last =>
          cases hterm : (exec stmt).terminalErr with
          | some e => rw [hterm] at h; simp at h
          | none =>
            rw [hterm] at h
            simp only [Option.some.injEq, Except.ok.injEq,
              Prod.mk.injEq] at h
            obtain ⟨_, h2⟩ := h
            subst h2
            exact pageLoop_cursor r.rowMapper r.primaryKeys pk0 hhead
              (exec stmt).rows [] none res' last hp

/-- Witness for C2 on a two-row page: the statement equation holds for
the empty token and the next token is the `user_id` value of the last
row. -/
theorem findPage_statements_and_cursor_witness :
    FindPage demoRepo
      (fun _ => { rows := [⟨[("user_id", .val (.strV "k1"))]⟩,
                          ⟨[("user_id", .val (.strV "k2"))]⟩],
                  terminalErr := none })
      2 none ["user_id"]
      = runPageQuery demoRepo
          (fun _ => { rows := [⟨[("user_id", .val (.strV "k1"))]⟩,
                              ⟨[("user_id", .val (.strV "k2"))]⟩],
                      terminalErr := none })
          (firstPageStmt demoRepo 2 ["user_id"])
    ∧ ∃ v, Row.columnByName ⟨[("user_id", .val (.strV "k2"))]⟩ "user_id"
        = .ok v
      ∧ some (Value.strV "k2") = some v := by
  constructor
  · exact ((findPage_statements_and_cursor demoRepo
      (fun _ => { rows := [⟨[("user_id", .val (.strV "k1"))]⟩,
                          ⟨[("user_id", .val (.strV "k2"))]⟩],
                  terminalErr := none })
      2 none ["user_id"] "user_id" [] rfl).1 rfl).1
  · exact ((findPage_statements_and_cursor demoRepo
      (fun _ => { rows := [⟨[("user_id", .val (.strV "k1"))]⟩,
                          ⟨[("user_id", .val (.strV "k2"))]⟩],
                  terminalErr := none })
      2 none ["user_id"] "user_id" [] rfl).2.2
      (firstPageStmt demoRepo 2 ["user_id"])
      [⟨[("user_id", .val (.strV "k1"))]⟩, ⟨[("user_id", .val (.strV "k2"))]⟩]
      (some (.strV "k2")) rfl).2
      ⟨[("user_id", .val (.strV "k2"))]⟩ rfl

end Repokit
